import Mathlib

/-!
Verification development for the recursive JSON-Schema-to-table flattener
(`schema_visualizer.py`): a shallow embedding of the loader, the reference
resolver, the cardinality and type-string derivers and the recursive walker,
together with theorems about cycle handling, reference resolution, the
record-emission discipline and the run-scoped caches.

Machine values loaded from YAML/JSON documents are modelled by the inductive
type `Json`; Python's dynamically-typed primitive operations (`in`,
subscription, `.get`, `.items()`, `len`, truthiness, `str()`) are modelled as
total Lean functions returning `Except` where Python would raise.
-/

inductive Json where
  | null
  | bool (b : Bool)
  | num (n : Int)
  | str (s : String)
  | arr (elems : List Json)
  | obj (kvs : List (String × Json))

/-- First-match association lookup: the model of Python `dict` access for the
insertion-ordered dictionaries produced by the YAML/JSON parsers. -/
def assoc {α : Type} : List (String × α) → String → Option α
  | [], _ => none
  | (k, v) :: rest, key => if k = key then some v else assoc rest key

/-- `s.startswith(p)` on kernel-reducible character lists. -/
def sStarts (s p : String) : Bool := p.data.isPrefixOf s.data

/-- `s[n:]`. -/
def sDrop (s : String) (n : Nat) : String := ⟨s.data.drop n⟩

/-- `needle in hay` for Python strings (substring containment). -/
def strContains (hay needle : String) : Bool :=
  (List.range (hay.data.length + 1)).any (fun i => needle.data.isPrefixOf (hay.data.drop i))

def splitF (sep : List Char) : Nat → List Char → List (List Char)
  | 0, cs => [cs]
  | _ + 1, [] => [[]]
  | fuel + 1, c :: cs =>
    if sep.isPrefixOf (c :: cs) then
      [] :: splitF sep fuel ((c :: cs).drop sep.length)
    else
      match splitF sep fuel cs with
      | seg :: rest => (c :: seg) :: rest
      | [] => [[c]]

/-- `s.split(sep)` for a non-empty separator, as in the source's
`ref[2:].split('/')` and `fragment.split('/')`. -/
def splitPy (s : String) (sep : String) : List String :=
  (splitF sep.data (s.data.length + 1) s.data).map (fun l => ⟨l⟩)

def intercal (sep : String) : List String → String
  | [] => ""
  | [x] => x
  | x :: rest => x ++ sep ++ intercal sep rest

/-- `s.split(sep, 1)`: split at the first occurrence only, as in
`ref.split('#/', 1)`. -/
def splitOnce (s sep : String) : String × String :=
  match splitPy s sep with
  | [] => (s, "")
  | [x] => (x, "")
  | x :: rest => (x, intercal sep rest)

/-- Python truthiness of a loaded value. -/
def truthy : Json → Bool
  | Json.null => false
  | Json.bool b => b
  | Json.num n => n != 0
  | Json.str s => !s.data.isEmpty
  | Json.arr xs => !xs.isEmpty
  | Json.obj kvs => !kvs.isEmpty

/-- `value == "lit"` for a string literal: equality across Python types is
`False` unless the value itself is that string. -/
def isStrEq : Json → String → Bool
  | Json.str s, lit => s = lit
  | _, _ => false

def hasStrElem (xs : List Json) (k : String) : Bool :=
  xs.any (fun x => match x with | Json.str s => s = k | _ => false)

/-- Python `k in j`: key membership for dicts, substring test for strings,
element membership for lists, `TypeError` otherwise. -/
def pyIn (k : String) : Json → Except String Bool
  | Json.obj kvs => Except.ok (assoc kvs k).isSome
  | Json.arr xs => Except.ok (hasStrElem xs k)
  | Json.str s => Except.ok (strContains s k)
  | _ => Except.error "TypeError: argument is not iterable"

/-- Python `j[k]` for a string key. -/
def pySubscript (j : Json) (k : String) : Except String Json :=
  match j with
  | Json.obj kvs =>
    match assoc kvs k with
    | some v => Except.ok v
    | none => Except.error ("KeyError: " ++ k)
  | Json.str _ => Except.error "TypeError: string indices must be integers"
  | Json.arr _ => Except.error "TypeError: list indices must be integers"
  | _ => Except.error "TypeError: object is not subscriptable"

/-- Python `j.get(k, d)`: only dicts have `.get`. -/
def pyGetD (j : Json) (k : String) (d : Json) : Except String Json :=
  match j with
  | Json.obj kvs => Except.ok ((assoc kvs k).getD d)
  | _ => Except.error "AttributeError: object has no attribute get"

/-- Python `j.get(k)` (default `None`). -/
def pyGet (j : Json) (k : String) : Except String Json := pyGetD j k Json.null

/-- Python `j.items()`. -/
def pyItems : Json → Except String (List (String × Json))
  | Json.obj kvs => Except.ok kvs
  | _ => Except.error "AttributeError: object has no attribute items"

/-- Python `len(j)`. -/
def pyLen : Json → Except String Nat
  | Json.arr xs => Except.ok xs.length
  | Json.str s => Except.ok s.data.length
  | Json.obj kvs => Except.ok kvs.length
  | _ => Except.error "TypeError: object has no len"

/-- Python `min_items > 0`: ints compare, bools coerce, anything else raises. -/
def pyGtZero : Json → Except String Bool
  | Json.num n => Except.ok (0 < n)
  | Json.bool b => Except.ok b
  | _ => Except.error "TypeError: unorderable types"

mutual
/-- Computable structural size of a loaded value, used as recursion fuel for
the functions that recurse through dictionary lookups. -/
def jsize : Json → Nat
  | Json.null => 1
  | Json.bool _ => 1
  | Json.num _ => 1
  | Json.str _ => 1
  | Json.arr xs => 1 + jsizeL xs
  | Json.obj kvs => 1 + jsizeP kvs

def jsizeL : List Json → Nat
  | [] => 0
  | x :: xs => 1 + jsize x + jsizeL xs

def jsizeP : List (String × Json) → Nat
  | [] => 0
  | kv :: rest => 1 + jsize kv.2 + jsizeP rest
end

def pyReprF : Nat → Json → String
  | 0, _ => ""
  | _ + 1, Json.null => "None"
  | _ + 1, Json.bool true => "True"
  | _ + 1, Json.bool false => "False"
  | _ + 1, Json.num n => toString n
  | _ + 1, Json.str s => "'" ++ s ++ "'"
  | fuel + 1, Json.arr xs => "[" ++ intercal ", " (xs.map (pyReprF fuel)) ++ "]"
  | fuel + 1, Json.obj kvs =>
    "\x7b" ++ intercal ", " (kvs.map (fun kv => "'" ++ kv.1 ++ "': " ++ pyReprF fuel kv.2)) ++ "\x7d"

/-- Python `repr(j)`. -/
def pyRepr (j : Json) : String := pyReprF (jsize j) j

/-- Python `str(j)`, as used by f-string interpolation. -/
def pyStr : Json → String
  | Json.str s => s
  | j => pyRepr j

/-- Python `map(str, j)` materialised to a list of strings:
lists yield elements, strings yield characters, dicts yield keys. -/
def pyIterStrs : Json → Except String (List String)
  | Json.arr xs => Except.ok (xs.map pyStr)
  | Json.str s => Except.ok (s.data.map (fun c => String.mk [c]))
  | Json.obj kvs => Except.ok (kvs.map (fun kv => kv.1))
  | _ => Except.error "TypeError: argument is not iterable"

/-- Python iteration materialised to a list of values: lists yield elements,
strings yield one-character strings, dicts yield keys. -/
def pyIterElems : Json → Except String (List Json)
  | Json.arr xs => Except.ok xs
  | Json.str s => Except.ok (s.data.map (fun c => Json.str (String.mk [c])))
  | Json.obj kvs => Except.ok (kvs.map (fun kv => Json.str kv.1))
  | _ => Except.error "TypeError: object is not iterable"

def allStrs : List Json → Option (List String)
  | [] => some []
  | Json.str s :: rest => (allStrs rest).map (fun ss => s :: ss)
  | _ :: _ => none

/-- `' | '.join(schema_type)`: every element must be a Python `str`. -/
def joinTypes (ts : List Json) : Except String Json :=
  match allStrs ts with
  | some ss => Except.ok (Json.str (intercal " | " ss))
  | none => Except.error "TypeError: sequence item: expected str instance"

/-- Embedding of `get_type_string`, fuelled for the recursion into `items`.
The Python function can return a non-string (it returns `schema_type` raw in
the final `else`), so the result is a `Json` value. -/
def gtsF : Nat → Json → Except String Json
  | 0, _ => Except.error "fuel exhausted"
  | _ + 1, Json.null => Except.error "TypeError: argument of type NoneType is not iterable"
  | _ + 1, Json.bool _ => Except.error "TypeError: argument of type bool is not iterable"
  | _ + 1, Json.num _ => Except.error "TypeError: argument of type int is not iterable"
  | _ + 1, Json.str s =>
    if strContains s "type" then Except.error "TypeError: string indices must be integers"
    else if strContains s "enum" then Except.error "TypeError: string indices must be integers"
    else if strContains s "oneOf" then Except.ok (Json.str "oneOf")
    else if strContains s "anyOf" then Except.ok (Json.str "anyOf")
    else if strContains s "allOf" then Except.ok (Json.str "allOf")
    else if strContains s "$ref" then Except.error "TypeError: string indices must be integers"
    else Except.ok (Json.str "unknown")
  | _ + 1, Json.arr xs =>
    if hasStrElem xs "type" then Except.error "TypeError: list indices must be integers"
    else if hasStrElem xs "enum" then Except.error "TypeError: list indices must be integers"
    else if hasStrElem xs "oneOf" then Except.ok (Json.str "oneOf")
    else if hasStrElem xs "anyOf" then Except.ok (Json.str "anyOf")
    else if hasStrElem xs "allOf" then Except.ok (Json.str "allOf")
    else if hasStrElem xs "$ref" then Except.error "TypeError: list indices must be integers"
    else Except.ok (Json.str "unknown")
  | fuel + 1, Json.obj kvs =>
    match assoc kvs "type" with
    | some (Json.arr ts) => joinTypes ts
    | some t =>
      if isStrEq t "array" then
        match assoc kvs "items" with
        | some items =>
          if truthy items then
            match gtsF fuel items with
            | Except.ok it => Except.ok (Json.str ("array<" ++ pyStr it ++ ">"))
            | Except.error e => Except.error e
          else Except.ok (Json.str "array<any>")
        | none => Except.ok (Json.str "array<any>")
      else if isStrEq t "object" then Except.ok (Json.str "object")
      else Except.ok t
    | none =>
      match assoc kvs "enum" with
      | some e =>
        match pyLen e with
        | Except.error er => Except.error er
        | Except.ok n =>
          if n ≤ 3 then
            match pyIterStrs e with
            | Except.error er => Except.error er
            | Except.ok ss => Except.ok (Json.str ("enum(" ++ intercal ", " ss ++ ")"))
          else Except.ok (Json.str ("enum(" ++ toString n ++ " values)"))
      | none =>
        match assoc kvs "oneOf" with
        | some _ => Except.ok (Json.str "oneOf")
        | none =>
          match assoc kvs "anyOf" with
          | some _ => Except.ok (Json.str "anyOf")
          | none =>
            match assoc kvs "allOf" with
            | some _ => Except.ok (Json.str "allOf")
            | none =>
              match assoc kvs "$ref" with
              | some r => Except.ok (Json.str ("ref(" ++ pyStr r ++ ")"))
              | none => Except.ok (Json.str "unknown")

/-- `get_type_string(schema)`: derive the display type of a schema fragment.
Purely local — it takes no document, cache or visited set, so it can never
resolve a reference. -/
def get_type_string (j : Json) : Except String Json := gtsF (jsize j) j

/-- Embedding of `get_cardinality(schema, parent_required, prop_name)`. -/
def get_cardinality (schema : Json) (parent_required : Json) (prop_name : String) :
    Except String String :=
  match pyIn prop_name parent_required with
  | Except.error e => Except.error e
  | Except.ok is_required =>
    match pyGet schema "type" with
    | Except.error e => Except.error e
    | Except.ok t =>
      if isStrEq t "array" then
        match pyGetD schema "minItems" (Json.num 0), pyGet schema "maxItems" with
        | Except.error e, _ => Except.error e
        | _, Except.error e => Except.error e
        | Except.ok mi, Except.ok ma =>
          if is_required then
            match pyGtZero mi with
            | Except.error e => Except.error e
            | Except.ok true =>
              match ma with
              | Json.null => Except.ok (pyStr mi ++ "..*")
              | _ => Except.ok (pyStr mi ++ ".." ++ pyStr ma)
            | Except.ok false =>
              match ma with
              | Json.null => Except.ok "0..*"
              | _ => Except.ok ("0.." ++ pyStr ma)
          else Except.ok "0..1 (array)"
      else Except.ok (if is_required then "1..1" else "0..1")

/-- One row of output: a flattened property record. -/
structure SchemaProperty where
  path : String
  name : String
  data_type : Json
  cardinality : String
  description : Json

/-- Run-scoped mutable state of the `JSONSchemaVisualizer` instance:
the visited-reference set, the document cache, the accumulated property
records and the warnings printed so far. -/
structure St where
  resolved_refs : List String
  schema_cache : List (String × Json)
  properties : List SchemaProperty
  warnings : List String

/-- Outcome of opening and parsing a file at a resolved path. -/
inductive LoadOutcome where
  | found (j : Json)
  | missing
  | parseError (msg : String)

/-- The ambient filesystem and path arithmetic: `fs` gives the parse outcome
at a resolved path, `baseJoin` models `base_path / path` for relative paths,
`resolve` models `Path.resolve()`, and `parentJoin` models
`current_path.parent / rel`. -/
structure Env where
  fs : String → LoadOutcome
  baseJoin : String → String
  resolve : String → String
  parentJoin : String → String → String

/-- Embedding of `load_schema`: cache check by resolved path, then read and
parse; a missing or unparseable file prints a warning and yields `{}`. -/
def load_schema (env : Env) (st : St) (file_path : String) : Json × St :=
  let path := env.baseJoin file_path
  let cache_key := env.resolve path
  match assoc st.schema_cache cache_key with
  | some s => (s, st)
  | none =>
    match env.fs cache_key with
    | LoadOutcome.found j =>
      (j, { st with schema_cache := (cache_key, j) :: st.schema_cache })
    | LoadOutcome.missing =>
      (Json.obj [], { st with warnings := st.warnings ++ ["Warning: Could not find file: " ++ path] })
    | LoadOutcome.parseError m =>
      (Json.obj [], { st with warnings := st.warnings ++ ["Warning: Error loading " ++ path ++ ": " ++ m] })

/-- The cycle-placeholder fragment returned when a reference is already on
the active resolution path. -/
def circularFrag (ref : String) : Json :=
  Json.obj [("type", Json.str "object"), ("description", Json.str ("Circular reference to " ++ ref))]

/-- The placeholder fragment for a reference that failed to resolve. -/
def unknownFrag (ref : String) : Json :=
  Json.obj [("type", Json.str "unknown"), ("description", Json.str ("Unresolved reference: " ++ ref))]

/-- The placeholder fragment for an HTTP reference (never fetched). -/
def externalFrag (ref : String) : Json :=
  Json.obj [("type", Json.str "external"), ("description", Json.str ("External reference: " ++ ref))]

/-- The descent loop of `resolve_reference`: follow successive keys; a
non-dict intermediate or a missing key fails. -/
def walkParts : List String → Json → Option Json
  | [], j => some j
  | p :: ps, j =>
    match j with
    | Json.obj kvs =>
      match assoc kvs p with
      | some v => walkParts ps v
      | none => none
    | _ => none

/-- The `try` body of `resolve_reference`: dispatch on the shape of the
reference token and produce the designated fragment or a placeholder. -/
def resolveBody (env : Env) (ref : String) (current_schema : Json) (current_path : String)
    (st1 : St) : Except String Json × St :=
  if sStarts ref "#/" then
    match walkParts (splitPy (sDrop ref 2) "/") current_schema with
    | some r => (Except.ok r, st1)
    | none => (Except.ok (unknownFrag ref), st1)
  else if sStarts ref "http" then
    (Except.ok (externalFrag ref), st1)
  else if strContains ref "#/" then
    let fp := splitOnce ref "#/"
    let ls := load_schema env st1 (env.parentJoin current_path fp.1)
    match walkParts (splitPy fp.2 "/") ls.1 with
    | some r => (Except.ok r, ls.2)
    | none => (Except.ok (unknownFrag ref), ls.2)
  else
    let ls := load_schema env st1 (env.parentJoin current_path ref)
    (Except.ok ls.1, ls.2)

/-- Embedding of `resolve_reference(ref, current_schema, current_path)`.
The result pairs the outcome (`Except.error` models a raised exception) with
the state after the call; the `finally` block's `discard` is applied on every
exit path of the `try`. A non-string hashable ref is added and then raises
`AttributeError` at `.startswith`, the `finally` restoring the set, so its
net effect is an error with the state unchanged. -/
def resolve_reference (env : Env) (st : St) (refJ : Json) (current_schema : Json)
    (current_path : String) : Except String Json × St :=
  match refJ with
  | Json.arr _ => (Except.error "TypeError: unhashable type: list", st)
  | Json.obj _ => (Except.error "TypeError: unhashable type: dict", st)
  | Json.str ref =>
    if ref ∈ st.resolved_refs then
      (Except.ok (circularFrag ref), st)
    else
      let body := resolveBody env ref current_schema current_path
        { st with resolved_refs := ref :: st.resolved_refs }
      (body.1, { body.2 with resolved_refs := body.2.resolved_refs.erase ref })
  | _ => (Except.error "AttributeError: object has no attribute startswith", st)

/-- A failure of the embedded walker: either a modelled Python exception or
exhaustion of the recursion fuel (the latter has no Python counterpart other
than nontermination / `RecursionError`). -/
inductive RunErr where
  | exc (e : String)
  | fuelOut

/-- The trailing `elif '$ref' in prop_schema` branch of the property loop. -/
def refCase (env : Env)
    (rec : St → Json → String → Json → String → Except RunErr Unit × St)
    (st : St) (prop_schema : Json) (prop_path : String) (current_file : String) :
    Except RunErr Unit × St :=
  match pyIn "$ref" prop_schema with
  | Except.error e => (Except.error (RunErr.exc e), st)
  | Except.ok true =>
    match pySubscript prop_schema "$ref" with
    | Except.error e => (Except.error (RunErr.exc e), st)
    | Except.ok r =>
      match resolve_reference env st r prop_schema current_file with
      | (Except.error e, st2) => (Except.error (RunErr.exc e), st2)
      | (Except.ok resolved, st2) => rec st2 resolved prop_path (Json.arr []) current_file
  | Except.ok false => (Except.ok (), st)

/-- The `for prop_name, prop_schema in properties.items()` loop of
`parse_schema`: emit one record per property, then recurse per the
object / array-items / `$ref` cases. -/
def runProps (env : Env)
    (rec : St → Json → String → Json → String → Except RunErr Unit × St) :
    St → List (String × Json) → String → Json → String → Except RunErr Unit × St
  | st, [], _, _, _ => (Except.ok (), st)
  | st, (prop_name, prop_schema) :: rest, path, required, current_file =>
    let prop_path := path ++ "/" ++ prop_name
    match get_type_string prop_schema with
    | Except.error e => (Except.error (RunErr.exc e), st)
    | Except.ok dt =>
      match get_cardinality prop_schema required prop_name with
      | Except.error e => (Except.error (RunErr.exc e), st)
      | Except.ok card =>
        match pyGetD prop_schema "description" (Json.str "") with
        | Except.error e => (Except.error (RunErr.exc e), st)
        | Except.ok desc =>
          let st' : St := { st with properties := st.properties ++
            [{ path := if path = "" then "/" else path, name := prop_name,
               data_type := dt, cardinality := card, description := desc }] }
          let step : Except RunErr Unit × St :=
            match pyGet prop_schema "type" with
            | Except.error e => (Except.error (RunErr.exc e), st')
            | Except.ok t =>
              if isStrEq t "object" then
                rec st' prop_schema prop_path (Json.arr []) current_file
              else
                match pyIn "properties" prop_schema with
                | Except.error e => (Except.error (RunErr.exc e), st')
                | Except.ok true => rec st' prop_schema prop_path (Json.arr []) current_file
                | Except.ok false =>
                  if isStrEq t "array" then
                    match pyIn "items" prop_schema with
                    | Except.error e => (Except.error (RunErr.exc e), st')
                    | Except.ok true =>
                      match pySubscript prop_schema "items" with
                      | Except.error e => (Except.error (RunErr.exc e), st')
                      | Except.ok items_schema =>
                        match pyGet items_schema "type" with
                        | Except.error e => (Except.error (RunErr.exc e), st')
                        | Except.ok it =>
                          if isStrEq it "object" then
                            rec st' items_schema (prop_path ++ "[]") (Json.arr []) current_file
                          else
                            match pyIn "properties" items_schema with
                            | Except.error e => (Except.error (RunErr.exc e), st')
                            | Except.ok true =>
                              rec st' items_schema (prop_path ++ "[]") (Json.arr []) current_file
                            | Except.ok false =>
                              match pyIn "$ref" items_schema with
                              | Except.error e => (Except.error (RunErr.exc e), st')
                              | Except.ok true =>
                                match pySubscript items_schema "$ref" with
                                | Except.error e => (Except.error (RunErr.exc e), st')
                                | Except.ok r =>
                                  match resolve_reference env st' r items_schema current_file with
                                  | (Except.error e, st2) => (Except.error (RunErr.exc e), st2)
                                  | (Except.ok resolved, st2) =>
                                    rec st2 resolved (prop_path ++ "[]") (Json.arr []) current_file
                              | Except.ok false => (Except.ok (), st')
                    | Except.ok false => refCase env rec st' prop_schema prop_path current_file
                  else refCase env rec st' prop_schema prop_path current_file
          match step with
          | (Except.error e, st2) => (Except.error e, st2)
          | (Except.ok _, st2) => runProps env rec st2 rest path required current_file

/-- The `for i, sub_schema in enumerate(schema[combine_key])` loop. -/
def runList (rec : St → Json → String → Json → String → Except RunErr Unit × St) :
    St → List Json → String → Json → String → Except RunErr Unit × St
  | st, [], _, _, _ => (Except.ok (), st)
  | st, b :: bs, sub_path, parent_required, current_file =>
    match rec st b sub_path parent_required current_file with
    | (Except.error e, st2) => (Except.error e, st2)
    | (Except.ok _, st2) => runList rec st2 bs sub_path parent_required current_file

/-- Handling of one combinator key found in the fragment. -/
def comboStep (rec : St → Json → String → Json → String → Except RunErr Unit × St)
    (st : St) (schema : Json) (key : String) (sub_path : String) (parent_required : Json)
    (current_file : String) : Except RunErr Unit × St :=
  match pySubscript schema key with
  | Except.error e => (Except.error (RunErr.exc e), st)
  | Except.ok v =>
    match pyIterElems v with
    | Except.error e => (Except.error (RunErr.exc e), st)
    | Except.ok branches => runList rec st branches sub_path parent_required current_file

/-- The object-properties branch of `parse_schema`. -/
def objectStep (env : Env)
    (rec : St → Json → String → Json → String → Except RunErr Unit × St)
    (st : St) (schema : Json) (path : String) (current_file : String) :
    Except RunErr Unit × St :=
  match pyGetD schema "properties" (Json.obj []) with
  | Except.error e => (Except.error (RunErr.exc e), st)
  | Except.ok properties =>
    match pyGetD schema "required" (Json.arr []) with
    | Except.error e => (Except.error (RunErr.exc e), st)
    | Except.ok required =>
      match pyItems properties with
      | Except.error e => (Except.error (RunErr.exc e), st)
      | Except.ok props => runProps env rec st props path required current_file

/-- Embedding of `parse_schema(schema, path, parent_required, current_file)`,
fuelled: `RunErr.fuelOut` marks a run that exceeds the fuel, which in Python
is unbounded recursion. The result pairs the outcome with the state. -/
def parse_schema (env : Env) : Nat → St → Json → String → Json → String →
    Except RunErr Unit × St
  | 0, st, _, _, _, _ => (Except.error RunErr.fuelOut, st)
  | fuel + 1, st, schema, path, parent_required, current_file =>
    match pyIn "$ref" schema with
    | Except.error e => (Except.error (RunErr.exc e), st)
    | Except.ok true =>
      match pySubscript schema "$ref" with
      | Except.error e => (Except.error (RunErr.exc e), st)
      | Except.ok refJ =>
        match resolve_reference env st refJ schema current_file with
        | (Except.error e, st2) => (Except.error (RunErr.exc e), st2)
        | (Except.ok resolved, st2) =>
          parse_schema env fuel st2 resolved path parent_required current_file
    | Except.ok false =>
      match pyIn "allOf" schema with
      | Except.error e => (Except.error (RunErr.exc e), st)
      | Except.ok true =>
        comboStep (fun s j p r c => parse_schema env fuel s j p r c) st schema "allOf"
          path parent_required current_file
      | Except.ok false =>
        match pyIn "anyOf" schema with
        | Except.error e => (Except.error (RunErr.exc e), st)
        | Except.ok true =>
          comboStep (fun s j p r c => parse_schema env fuel s j p r c) st schema "anyOf"
            (path ++ "[or]/") parent_required current_file
        | Except.ok false =>
          match pyIn "oneOf" schema with
          | Except.error e => (Except.error (RunErr.exc e), st)
          | Except.ok true =>
            comboStep (fun s j p r c => parse_schema env fuel s j p r c) st schema "oneOf"
              (path ++ "[xor]/") parent_required current_file
          | Except.ok false =>
            match pyGet schema "type" with
            | Except.error e => (Except.error (RunErr.exc e), st)
            | Except.ok t =>
              if isStrEq t "object" then
                objectStep env (fun s j p r c => parse_schema env fuel s j p r c) st schema
                  path current_file
              else
                match pyIn "properties" schema with
                | Except.error e => (Except.error (RunErr.exc e), st)
                | Except.ok true =>
                  objectStep env (fun s j p r c => parse_schema env fuel s j p r c) st schema
                    path current_file
                | Except.ok false =>
                  if isStrEq t "array" then
                    match pyIn "items" schema with
                    | Except.error e => (Except.error (RunErr.exc e), st)
                    | Except.ok true =>
                      match pySubscript schema "items" with
                      | Except.error e => (Except.error (RunErr.exc e), st)
                      | Except.ok items_schema =>
                        match pyGet items_schema "type" with
                        | Except.error e => (Except.error (RunErr.exc e), st)
                        | Except.ok it =>
                          if isStrEq it "object" then
                            parse_schema env fuel st items_schema (path ++ "[]")
                              (Json.arr []) current_file
                          else
                            match pyIn "properties" items_schema with
                            | Except.error e => (Except.error (RunErr.exc e), st)
                            | Except.ok true =>
                              parse_schema env fuel st items_schema (path ++ "[]")
                                (Json.arr []) current_file
                            | Except.ok false => (Except.ok (), st)
                    | Except.ok false => (Except.ok (), st)
                  else (Except.ok (), st)

/-- Modelled from the spec's words for the internal-reference contract:
"walk the current document by splitting the path on `/` and descending
through successive keys". Compared against the source-derived walk. -/
def specDescend : Json → List String → Option Json
  | j, [] => some j
  | Json.obj kvs, k :: ks =>
    match assoc kvs k with
    | some v => specDescend v ks
    | none => none
  | _, _ :: _ => none

/-- Whether a fragment takes the object-properties branch of the walker:
explicit `type: object`, or a `properties` key present. -/
def objLike (kvs : List (String × Json)) : Bool :=
  isStrEq ((assoc kvs "type").getD Json.null) "object" || (assoc kvs "properties").isSome

/-- The per-property rows (record plus rows of the nested recursion) for the
reference-free, combinator-free, well-typed class of schemas. `rec` is the
rows function for nested fragments; `none` marks a schema outside the class. -/
def rowsPropsF (rec : Json → String → Option (List SchemaProperty)) :
    List (String × Json) → String → Json → Option (List SchemaProperty)
  | [], _, _ => some []
  | (name, v) :: rest, path, required =>
    match v with
    | Json.obj pkvs =>
      match get_type_string v, get_cardinality v required name with
      | Except.ok dt, Except.ok card =>
        let row : SchemaProperty :=
          { path := if path = "" then "/" else path, name := name, data_type := dt,
            cardinality := card, description := (assoc pkvs "description").getD (Json.str "") }
        let prop_path := path ++ "/" ++ name
        let nested : Option (List SchemaProperty) :=
          if objLike pkvs then rec v prop_path
          else if isStrEq ((assoc pkvs "type").getD Json.null) "array" then
            match assoc pkvs "items" with
            | some (Json.obj ikvs) =>
              if objLike ikvs then rec (Json.obj ikvs) (prop_path ++ "[]")
              else if (assoc ikvs "$ref").isSome then none else some []
            | some _ => none
            | none => if (assoc pkvs "$ref").isSome then none else some []
          else if (assoc pkvs "$ref").isSome then none else some []
        match nested, rowsPropsF rec rest path required with
        | some ns, some rs => some (row :: ns ++ rs)
        | _, _ => none
      | _, _ => none
    | _ => none

/-- The expected rows for a schema in the reference-free, combinator-free,
well-typed class: one record per declared property, in document key order, at
every nesting level reachable via `properties` / `items`; `none` when the
schema is outside the class. -/
def rowsOfF : Nat → Json → String → Option (List SchemaProperty)
  | 0, _, _ => none
  | fuel + 1, Json.obj kvs, path =>
    if (assoc kvs "$ref").isSome || (assoc kvs "allOf").isSome || (assoc kvs "anyOf").isSome
        || (assoc kvs "oneOf").isSome then none
    else if objLike kvs then
      match assoc kvs "properties" with
      | none => some []
      | some (Json.obj props) =>
        rowsPropsF (fun j p => rowsOfF fuel j p) props path ((assoc kvs "required").getD (Json.arr []))
      | some _ => none
    else if isStrEq ((assoc kvs "type").getD Json.null) "array" then
      match assoc kvs "items" with
      | some (Json.obj ikvs) =>
        if objLike ikvs then rowsOfF fuel (Json.obj ikvs) (path ++ "[]") else some []
      | some _ => none
      | none => some []
    else some []
  | _ + 1, _, _ => none

/-- The expected rows at canonical fuel. -/
def rowsOf (j : Json) (path : String) : Option (List SchemaProperty) := rowsOfF (jsize j) j path

theorem jsize_pos (j : Json) : 1 ≤ jsize j := by
  cases j <;> simp [jsize]

theorem assoc_jsize_lt : ∀ {kvs : List (String × Json)} {k : String} {v : Json},
    assoc kvs k = some v → jsize v < jsize (Json.obj kvs)
  | [], _, _, h => by simp [assoc] at h
  | (k', v') :: rest, k, v, h => by
    rw [assoc] at h
    split at h
    · cases h
      simp only [jsize, jsizeP]
      omega
    · have hrec := assoc_jsize_lt h
      simp only [jsize, jsizeP] at hrec ⊢
      omega

theorem mem_jsize_lt : ∀ {kvs : List (String × Json)} {kv : String × Json},
    kv ∈ kvs → jsize kv.2 < jsize (Json.obj kvs)
  | [], _, h => by cases h
  | kv' :: rest, kv, h => by
    rcases List.mem_cons.mp h with h1 | h2
    · subst h1
      simp only [jsize, jsizeP]
      omega
    · have hrec := mem_jsize_lt h2
      simp only [jsize, jsizeP] at hrec ⊢
      omega

theorem load_schema_refs (env : Env) (st : St) (p : String) :
    ((load_schema env st p).2).resolved_refs = st.resolved_refs := by
  simp only [load_schema]
  split
  · rfl
  · split <;> rfl

theorem load_schema_props (env : Env) (st : St) (p : String) :
    ((load_schema env st p).2).properties = st.properties := by
  simp only [load_schema]
  split
  · rfl
  · split <;> rfl

theorem resolveBody_refs (env : Env) (ref : String) (cs : Json) (cp : String) (st1 : St) :
    ((resolveBody env ref cs cp st1).2).resolved_refs = st1.resolved_refs := by
  simp only [resolveBody]
  split
  · split <;> rfl
  · split
    · rfl
    · split
      · split <;> simp [load_schema_refs]
      · simp [load_schema_refs]

theorem walk_eq_descend : ∀ (parts : List String) (j : Json),
    walkParts parts j = specDescend j parts
  | [], j => by cases j <;> rfl
  | p :: ps, j => by
    cases j with
    | obj kvs =>
      simp only [walkParts, specDescend]
      cases assoc kvs p with
      | some v => exact walk_eq_descend ps v
      | none => rfl
    | null => rfl
    | bool b => rfl
    | num n => rfl
    | str s => rfl
    | arr xs => rfl

/-- C9: for every call to `resolve_reference`, the visited-reference set
(VisitGuard) after the call equals the set before the call — the token added
for the call is released on every exit path (success, placeholder, or error)
before returning. -/
theorem resolve_reference_restores_guard (env : Env) (st : St) (refJ : Json)
    (cs : Json) (cp : String) :
    ((resolve_reference env st refJ cs cp).2).resolved_refs = st.resolved_refs := by
  cases refJ with
  | null => rfl
  | bool b => rfl
  | num n => rfl
  | arr xs => rfl
  | obj kvs => rfl
  | str ref =>
    simp only [resolve_reference]
    split
    · rfl
    · simp [resolveBody_refs, List.erase_cons_head]

/-- C2: an internal reference token (`#/a/b/c`), when not already on the
active path, resolves by splitting the path on `/` and descending through the
successive keys of the document array it was found in; it yields the
designated fragment, or the "unknown" placeholder naming the reference
exactly when the descent fails. -/
theorem internal_reference_walks_document (env : Env) (st : St) (ref : String)
    (doc : Json) (cp : String) (h1 : sStarts ref "#/" = true)
    (h2 : ref ∉ st.resolved_refs) :
    resolve_reference env st (Json.str ref) doc cp =
      ((match specDescend doc (splitPy (sDrop ref 2) "/") with
        | some r => Except.ok r
        | none => Except.ok (unknownFrag ref)), st) := by
  simp only [resolve_reference, if_neg h2, resolveBody, h1, if_true]
  rw [walk_eq_descend]
  cases hd : specDescend doc (splitPy (sDrop ref 2) "/") with
  | some r => simp [List.erase_cons_head]
  | none => simp [List.erase_cons_head]

/-- Witness for C2 at a concrete document and reference. -/
theorem internal_reference_walks_document_witness :
    resolve_reference ⟨fun _ => LoadOutcome.missing, id, id, fun _ r => r⟩ ⟨[], [], [], []⟩
      (Json.str "#/definitions/A")
      (Json.obj [("definitions", Json.obj [("A", Json.obj [("type", Json.str "string")])])]) ""
      = (Except.ok (Json.obj [("type", Json.str "string")]), ⟨[], [], [], []⟩) := by
  have h := internal_reference_walks_document
    ⟨fun _ => LoadOutcome.missing, id, id, fun _ r => r⟩ ⟨[], [], [], []⟩
    "#/definitions/A"
    (Json.obj [("definitions", Json.obj [("A", Json.obj [("type", Json.str "string")])])]) ""
    rfl (by simp)
  have hd : specDescend
      (Json.obj [("definitions", Json.obj [("A", Json.obj [("type", Json.str "string")])])])
      (splitPy (sDrop "#/definitions/A" 2) "/") = some (Json.obj [("type", Json.str "string")]) := rfl
  rw [hd] at h
  exact h

theorem pyStr_num (n : Int) : pyStr (Json.num n) = toString n := rfl

/-- C3: cardinality derivation — a non-array property yields `1..1` when
required and `0..1` otherwise; an optional array property always yields
`0..1 (array)` regardless of `minItems`/`maxItems`; a required array property
yields `min..max` / `min..*` when `minItems` > 0 and `0..max` / `0..*` when
`minItems` (defaulting to 0) is 0. -/
theorem get_cardinality_cases (kvs : List (String × Json)) (reqs : List Json) (name : String) :
    (isStrEq ((assoc kvs "type").getD Json.null) "array" = false →
      get_cardinality (Json.obj kvs) (Json.arr reqs) name =
        Except.ok (if hasStrElem reqs name then "1..1" else "0..1"))
    ∧ (isStrEq ((assoc kvs "type").getD Json.null) "array" = true →
        hasStrElem reqs name = false →
        get_cardinality (Json.obj kvs) (Json.arr reqs) name = Except.ok "0..1 (array)")
    ∧ (∀ m : Int, isStrEq ((assoc kvs "type").getD Json.null) "array" = true →
        hasStrElem reqs name = true →
        assoc kvs "minItems" = some (Json.num m) → 0 < m →
        (assoc kvs "maxItems").getD Json.null = Json.null →
        get_cardinality (Json.obj kvs) (Json.arr reqs) name =
          Except.ok (toString m ++ "..*"))
    ∧ (∀ m M : Int, isStrEq ((assoc kvs "type").getD Json.null) "array" = true →
        hasStrElem reqs name = true →
        assoc kvs "minItems" = some (Json.num m) → 0 < m →
        (assoc kvs "maxItems").getD Json.null = Json.num M →
        get_cardinality (Json.obj kvs) (Json.arr reqs) name =
          Except.ok (toString m ++ ".." ++ toString M))
    ∧ (isStrEq ((assoc kvs "type").getD Json.null) "array" = true →
        hasStrElem reqs name = true →
        (assoc kvs "minItems" = none ∨ assoc kvs "minItems" = some (Json.num 0)) →
        (assoc kvs "maxItems").getD Json.null = Json.null →
        get_cardinality (Json.obj kvs) (Json.arr reqs) name = Except.ok "0..*")
    ∧ (∀ M : Int, isStrEq ((assoc kvs "type").getD Json.null) "array" = true →
        hasStrElem reqs name = true →
        (assoc kvs "minItems" = none ∨ assoc kvs "minItems" = some (Json.num 0)) →
        (assoc kvs "maxItems").getD Json.null = Json.num M →
        get_cardinality (Json.obj kvs) (Json.arr reqs) name =
          Except.ok ("0.." ++ toString M)) := by
  refine ⟨?_, ?_, ?_, ?_, ?_, ?_⟩
  · intro ht
    simp [get_cardinality, pyIn, pyGet, pyGetD, ht]
  · intro ht hr
    simp [get_cardinality, pyIn, pyGet, pyGetD, ht, hr]
  · intro m ht hr hmin hpos hmax
    simp [get_cardinality, pyIn, pyGet, pyGetD, ht, hr, hmin, hmax, pyGtZero, hpos, pyStr_num]
  · intro m M ht hr hmin hm hmax
    simp only [get_cardinality, pyIn, pyGet, pyGetD, ht, hr, hmin, hmax]
    simp [pyGtZero, hm, pyStr_num]
  · intro ht hr hmin hmax
    rcases hmin with hmin | hmin <;>
      simp [get_cardinality, pyIn, pyGet, pyGetD, ht, hr, hmin, hmax, pyGtZero]
  · intro M ht hr hmin hmax
    rcases hmin with hmin | hmin <;>
      simp [get_cardinality, pyIn, pyGet, pyGetD, ht, hr, hmin, hmax, pyGtZero, pyStr_num]

/-- Witness for C3: each cardinality case evaluated at a concrete property. -/
theorem get_cardinality_cases_witness :
    get_cardinality (Json.obj [("type", Json.str "string")]) (Json.arr [Json.str "id"]) "id"
      = Except.ok "1..1"
    ∧ get_cardinality (Json.obj [("type", Json.str "string")]) (Json.arr []) "id"
      = Except.ok "0..1"
    ∧ get_cardinality (Json.obj [("type", Json.str "array"), ("minItems", Json.num 1)])
        (Json.arr []) "tags" = Except.ok "0..1 (array)"
    ∧ get_cardinality (Json.obj [("type", Json.str "array"), ("minItems", Json.num 2)])
        (Json.arr [Json.str "tags"]) "tags" = Except.ok "2..*"
    ∧ get_cardinality (Json.obj [("type", Json.str "array"), ("minItems", Json.num 2),
        ("maxItems", Json.num 5)]) (Json.arr [Json.str "tags"]) "tags" = Except.ok "2..5"
    ∧ get_cardinality (Json.obj [("type", Json.str "array")])
        (Json.arr [Json.str "tags"]) "tags" = Except.ok "0..*"
    ∧ get_cardinality (Json.obj [("type", Json.str "array"), ("minItems", Json.num 0),
        ("maxItems", Json.num 7)]) (Json.arr [Json.str "tags"]) "tags" = Except.ok "0..7" := by
  refine ⟨?_, ?_, ?_, ?_, ?_, ?_, ?_⟩
  · exact (get_cardinality_cases [("type", Json.str "string")] [Json.str "id"] "id").1 rfl
  · exact (get_cardinality_cases [("type", Json.str "string")] [] "id").1 rfl
  · exact (get_cardinality_cases [("type", Json.str "array"), ("minItems", Json.num 1)]
      [] "tags").2.1 rfl rfl
  · exact (get_cardinality_cases [("type", Json.str "array"), ("minItems", Json.num 2)]
      [Json.str "tags"] "tags").2.2.1 2 rfl rfl rfl (by omega) rfl
  · exact (get_cardinality_cases [("type", Json.str "array"), ("minItems", Json.num 2),
      ("maxItems", Json.num 5)] [Json.str "tags"] "tags").2.2.2.1 2 5 rfl rfl rfl (by omega) rfl
  · exact (get_cardinality_cases [("type", Json.str "array")]
      [Json.str "tags"] "tags").2.2.2.2.1 rfl rfl (Or.inl rfl) rfl
  · exact (get_cardinality_cases [("type", Json.str "array"), ("minItems", Json.num 0),
      ("maxItems", Json.num 7)] [Json.str "tags"] "tags").2.2.2.2.2 7 rfl rfl (Or.inr rfl) rfl

theorem gtsF_irrel : ∀ (n : Nat) (j : Json), jsize j ≤ n → gtsF n j = get_type_string j := by
  intro n
  induction n using Nat.strong_induction_on with
  | _ n IH =>
    intro j hle
    cases n with
    | zero => exact absurd (le_trans (jsize_pos j) hle) (by omega)
    | succ n' =>
      cases j with
      | null => rfl
      | bool b => rfl
      | num m => rfl
      | str s => rfl
      | arr xs =>
        have hj : jsize (Json.arr xs) = jsizeL xs + 1 := by simp [jsize, Nat.add_comm]
        simp only [get_type_string]
        rw [hj]
        simp only [gtsF]
      | obj kvs =>
        have hj : jsize (Json.obj kvs) = jsizeP kvs + 1 := by simp [jsize, Nat.add_comm]
        simp only [get_type_string]
        rw [hj]
        simp only [gtsF]
        cases hty : assoc kvs "type" with
        | some t =>
          cases t with
          | arr ts => rfl
          | str s =>
            by_cases hs : s = "array"
            · subst hs
              simp only [isStrEq, if_pos rfl]
              cases hit : assoc kvs "items" with
              | some items =>
                by_cases htr : truthy items
                · have hlt := assoc_jsize_lt hit
                  rw [hj] at hlt
                  have h1 : gtsF n' items = get_type_string items := by
                    apply IH n' (by omega) items
                    omega
                  have h2 : gtsF (jsizeP kvs) items = get_type_string items := by
                    apply IH (jsizeP kvs) (by omega) items
                    omega
                  simp [htr, h1, h2]
                · simp [htr]
              | none => rfl
            · simp [isStrEq, hs]
          | null => rfl
          | bool b => rfl
          | num m => rfl
          | obj okvs => rfl
        | none => rfl

theorem jsize_obj (kvs : List (String × Json)) : jsize (Json.obj kvs) = jsizeP kvs + 1 := by
  simp [jsize, Nat.add_comm]

/-- C4: `get_type_string` follows the priority order explicit `type`, then
`enum`, then combinator, then `$ref`, then unknown: a type list joins with
`" | "`; `type: array` wraps the items' recursively derived type as
`array<...>` (or `array<any>` with no items); `type: object` gives `object`;
another scalar type gives the type name; an enum of at most 3 values is
listed inline, a longer one rendered as a count; a combinator key gives its
name; a `$ref` gives `ref(<token>)`; anything else gives `unknown` — all
computed locally, without resolving any reference. -/
theorem get_type_string_cases (kvs : List (String × Json)) :
    (∀ ts ss, assoc kvs "type" = some (Json.arr ts) → allStrs ts = some ss →
      get_type_string (Json.obj kvs) = Except.ok (Json.str (intercal " | " ss)))
    ∧ (∀ items, assoc kvs "type" = some (Json.str "array") →
        assoc kvs "items" = some items → truthy items = true →
        get_type_string (Json.obj kvs) =
          Except.map (fun it => Json.str ("array<" ++ pyStr it ++ ">")) (get_type_string items))
    ∧ (assoc kvs "type" = some (Json.str "array") →
        (assoc kvs "items" = none ∨ ∃ i, assoc kvs "items" = some i ∧ truthy i = false) →
        get_type_string (Json.obj kvs) = Except.ok (Json.str "array<any>"))
    ∧ (assoc kvs "type" = some (Json.str "object") →
        get_type_string (Json.obj kvs) = Except.ok (Json.str "object"))
    ∧ (∀ s, assoc kvs "type" = some (Json.str s) → s ≠ "array" → s ≠ "object" →
        get_type_string (Json.obj kvs) = Except.ok (Json.str s))
    ∧ (∀ vs, assoc kvs "type" = none → assoc kvs "enum" = some (Json.arr vs) →
        vs.length ≤ 3 →
        get_type_string (Json.obj kvs) =
          Except.ok (Json.str ("enum(" ++ intercal ", " (vs.map pyStr) ++ ")")))
    ∧ (∀ vs, assoc kvs "type" = none → assoc kvs "enum" = some (Json.arr vs) →
        3 < vs.length →
        get_type_string (Json.obj kvs) =
          Except.ok (Json.str ("enum(" ++ toString vs.length ++ " values)")))
    ∧ (∀ x, assoc kvs "type" = none → assoc kvs "enum" = none →
        assoc kvs "oneOf" = some x →
        get_type_string (Json.obj kvs) = Except.ok (Json.str "oneOf"))
    ∧ (∀ x, assoc kvs "type" = none → assoc kvs "enum" = none →
        assoc kvs "oneOf" = none → assoc kvs "anyOf" = some x →
        get_type_string (Json.obj kvs) = Except.ok (Json.str "anyOf"))
    ∧ (∀ x, assoc kvs "type" = none → assoc kvs "enum" = none →
        assoc kvs "oneOf" = none → assoc kvs "anyOf" = none →
        assoc kvs "allOf" = some x →
        get_type_string (Json.obj kvs) = Except.ok (Json.str "allOf"))
    ∧ (∀ r, assoc kvs "type" = none → assoc kvs "enum" = none →
        assoc kvs "oneOf" = none → assoc kvs "anyOf" = none →
        assoc kvs "allOf" = none → assoc kvs "$ref" = some r →
        get_type_string (Json.obj kvs) = Except.ok (Json.str ("ref(" ++ pyStr r ++ ")")))
    ∧ (assoc kvs "type" = none → assoc kvs "enum" = none →
        assoc kvs "oneOf" = none → assoc kvs "anyOf" = none →
        assoc kvs "allOf" = none → assoc kvs "$ref" = none →
        get_type_string (Json.obj kvs) = Except.ok (Json.str "unknown")) := by
  refine ⟨?_, ?_, ?_, ?_, ?_, ?_, ?_, ?_, ?_, ?_, ?_, ?_⟩
  · intro ts ss hty hss
    simp only [get_type_string]
    rw [jsize_obj]
    simp [gtsF, hty, joinTypes, hss]
  · intro items hty hit htr
    have hle : jsize items ≤ jsizeP kvs := by
      have hlt := assoc_jsize_lt hit
      rw [jsize_obj] at hlt
      omega
    simp only [get_type_string]
    rw [jsize_obj]
    simp only [gtsF, hty, hit]
    rw [gtsF_irrel _ items hle, gtsF_irrel (jsize items) items (le_refl _)]
    cases hgt : get_type_string items <;> simp [isStrEq, htr, hgt, Except.map]
  · intro hty hit
    simp only [get_type_string]
    rw [jsize_obj]
    rcases hit with hit | ⟨i, hit, hfalse⟩
    · simp [gtsF, hty, hit, isStrEq]
    · simp [gtsF, hty, hit, isStrEq, hfalse]
  · intro hty
    simp only [get_type_string]
    rw [jsize_obj]
    simp [gtsF, hty, isStrEq]
  · intro s hty hs1 hs2
    simp only [get_type_string]
    rw [jsize_obj]
    simp [gtsF, hty, isStrEq, hs1, hs2]
  · intro vs hty hen hlen
    simp only [get_type_string]
    rw [jsize_obj]
    simp [gtsF, hty, hen, pyLen, hlen, pyIterStrs]
  · intro vs hty hen hlen
    simp only [get_type_string]
    rw [jsize_obj]
    simp [gtsF, hty, hen, pyLen, Nat.not_le.mpr hlen, pyIterStrs]
  · intro x hty hen h1
    simp only [get_type_string]
    rw [jsize_obj]
    simp [gtsF, hty, hen, h1]
  · intro x hty hen h1 h2
    simp only [get_type_string]
    rw [jsize_obj]
    simp [gtsF, hty, hen, h1, h2]
  · intro x hty hen h1 h2 h3
    simp only [get_type_string]
    rw [jsize_obj]
    simp [gtsF, hty, hen, h1, h2, h3]
  · intro r hty hen h1 h2 h3 h4
    simp only [get_type_string]
    rw [jsize_obj]
    simp [gtsF, hty, hen, h1, h2, h3, h4]
  · intro hty hen h1 h2 h3 h4
    simp only [get_type_string]
    rw [jsize_obj]
    simp [gtsF, hty, hen, h1, h2, h3, h4]

/-- Witness for C4: each priority case evaluated at a concrete fragment. -/
theorem get_type_string_cases_witness :
    get_type_string (Json.obj [("type", Json.arr [Json.str "string", Json.str "null"])])
      = Except.ok (Json.str "string | null")
    ∧ get_type_string (Json.obj [("type", Json.str "array"),
        ("items", Json.obj [("type", Json.str "string")])]) = Except.ok (Json.str "array<string>")
    ∧ get_type_string (Json.obj [("type", Json.str "array")]) = Except.ok (Json.str "array<any>")
    ∧ get_type_string (Json.obj [("type", Json.str "object")]) = Except.ok (Json.str "object")
    ∧ get_type_string (Json.obj [("type", Json.str "integer")]) = Except.ok (Json.str "integer")
    ∧ get_type_string (Json.obj [("enum", Json.arr [Json.str "a", Json.num 2])])
      = Except.ok (Json.str "enum(a, 2)")
    ∧ get_type_string (Json.obj [("enum",
        Json.arr [Json.num 1, Json.num 2, Json.num 3, Json.num 4])])
      = Except.ok (Json.str "enum(4 values)")
    ∧ get_type_string (Json.obj [("oneOf", Json.arr [])]) = Except.ok (Json.str "oneOf")
    ∧ get_type_string (Json.obj [("anyOf", Json.arr [])]) = Except.ok (Json.str "anyOf")
    ∧ get_type_string (Json.obj [("allOf", Json.arr [])]) = Except.ok (Json.str "allOf")
    ∧ get_type_string (Json.obj [("$ref", Json.str "#/x")]) = Except.ok (Json.str "ref(#/x)")
    ∧ get_type_string (Json.obj []) = Except.ok (Json.str "unknown") := by
  refine ⟨?_, ?_, ?_, ?_, ?_, ?_, ?_, ?_, ?_, ?_, ?_, ?_⟩
  · exact (get_type_string_cases [("type", Json.arr [Json.str "string", Json.str "null"])]).1
      [Json.str "string", Json.str "null"] ["string", "null"] rfl rfl
  · exact (get_type_string_cases [("type", Json.str "array"),
      ("items", Json.obj [("type", Json.str "string")])]).2.1
      (Json.obj [("type", Json.str "string")]) rfl rfl rfl
  · exact (get_type_string_cases [("type", Json.str "array")]).2.2.1 rfl (Or.inl rfl)
  · exact (get_type_string_cases [("type", Json.str "object")]).2.2.2.1 rfl
  · exact (get_type_string_cases [("type", Json.str "integer")]).2.2.2.2.1 "integer" rfl
      (by simp) (by simp)
  · exact (get_type_string_cases [("enum", Json.arr [Json.str "a", Json.num 2])]).2.2.2.2.2.1
      [Json.str "a", Json.num 2] rfl rfl (by decide)
  · exact (get_type_string_cases [("enum",
      Json.arr [Json.num 1, Json.num 2, Json.num 3, Json.num 4])]).2.2.2.2.2.2.1
      [Json.num 1, Json.num 2, Json.num 3, Json.num 4] rfl rfl (by decide)
  · exact (get_type_string_cases [("oneOf", Json.arr [])]).2.2.2.2.2.2.2.1
      (Json.arr []) rfl rfl rfl
  · exact (get_type_string_cases [("anyOf", Json.arr [])]).2.2.2.2.2.2.2.2.1
      (Json.arr []) rfl rfl rfl rfl
  · exact (get_type_string_cases [("allOf", Json.arr [])]).2.2.2.2.2.2.2.2.2.1
      (Json.arr []) rfl rfl rfl rfl rfl
  · exact (get_type_string_cases [("$ref", Json.str "#/x")]).2.2.2.2.2.2.2.2.2.2.1
      (Json.str "#/x") rfl rfl rfl rfl rfl rfl
  · exact (get_type_string_cases []).2.2.2.2.2.2.2.2.2.2.2 rfl rfl rfl rfl rfl rfl

theorem splitF_ne_nil : ∀ (sep : List Char) (fuel : Nat) (cs : List Char),
    splitF sep fuel cs ≠ []
  | _, 0, _ => by simp [splitF]
  | _, _ + 1, [] => by simp [splitF]
  | sep, fuel + 1, c :: cs => by
    simp only [splitF]
    split
    · simp
    · split <;> simp

theorem splitPy_ne_nil (s sep : String) : splitPy s sep ≠ [] := by
  simp only [splitPy]
  intro h
  exact splitF_ne_nil sep.data (s.data.length + 1) s.data (List.map_eq_nil_iff.mp h)

theorem walkParts_emptyObj (parts : List String) (h : parts ≠ []) :
    walkParts parts (Json.obj []) = none := by
  cases parts with
  | nil => exact absurd rfl h
  | cons p ps => rfl

/-- C6: a missing file makes the loader print a warning and return an empty
document instead of raising, an unparseable file likewise makes it print a
(different) warning and return an empty document, and a reference with a
fragment path into such a file then resolves to the "unknown" placeholder
fragment rather than aborting. -/
theorem missing_file_warns_and_resolves_unknown (env : Env) (p : String) :
    (∀ st : St, env.fs (env.resolve (env.baseJoin p)) = LoadOutcome.missing →
      assoc st.schema_cache (env.resolve (env.baseJoin p)) = none →
      load_schema env st p =
        (Json.obj [],
         { st with warnings := st.warnings ++ ["Warning: Could not find file: " ++ env.baseJoin p] }))
    ∧ (∀ (st : St) (msg : String),
        env.fs (env.resolve (env.baseJoin p)) = LoadOutcome.parseError msg →
        assoc st.schema_cache (env.resolve (env.baseJoin p)) = none →
        load_schema env st p =
          (Json.obj [],
           { st with warnings :=
               st.warnings ++ ["Warning: Error loading " ++ env.baseJoin p ++ ": " ++ msg] }))
    ∧ (∀ (st : St) (ref fileP frag cp : String) (cs : Json),
        env.fs (env.resolve (env.baseJoin p)) = LoadOutcome.missing →
        sStarts ref "#/" = false → sStarts ref "http" = false →
        strContains ref "#/" = true → splitOnce ref "#/" = (fileP, frag) →
        env.parentJoin cp fileP = p →
        assoc st.schema_cache (env.resolve (env.baseJoin p)) = none →
        ref ∉ st.resolved_refs →
        resolve_reference env st (Json.str ref) cs cp =
          (Except.ok (unknownFrag ref),
           { st with warnings := st.warnings ++ ["Warning: Could not find file: " ++ env.baseJoin p] }))
    ∧ (∀ (st : St) (ref fileP frag cp msg : String) (cs : Json),
        env.fs (env.resolve (env.baseJoin p)) = LoadOutcome.parseError msg →
        sStarts ref "#/" = false → sStarts ref "http" = false →
        strContains ref "#/" = true → splitOnce ref "#/" = (fileP, frag) →
        env.parentJoin cp fileP = p →
        assoc st.schema_cache (env.resolve (env.baseJoin p)) = none →
        ref ∉ st.resolved_refs →
        resolve_reference env st (Json.str ref) cs cp =
          (Except.ok (unknownFrag ref),
           { st with warnings :=
               st.warnings ++ ["Warning: Error loading " ++ env.baseJoin p ++ ": " ++ msg] })) := by
  refine ⟨?_, ?_, ?_, ?_⟩
  · intro st hmiss hnc
    simp [load_schema, hnc, hmiss]
  · intro st msg hperr hnc
    simp [load_schema, hnc, hperr]
  · intro st ref fileP frag cp cs hmiss h1 h2 h3 hsp hpj hnc hmem
    simp only [resolve_reference, if_neg hmem, resolveBody, h1, h2, h3, hsp, hpj]
    simp only [Bool.false_eq_true, if_false, if_true]
    simp only [load_schema, hnc, hmiss]
    rw [walkParts_emptyObj (splitPy frag "/") (splitPy_ne_nil frag "/")]
    simp [List.erase_cons_head]
  · intro st ref fileP frag cp msg cs hperr h1 h2 h3 hsp hpj hnc hmem
    simp only [resolve_reference, if_neg hmem, resolveBody, h1, h2, h3, hsp, hpj]
    simp only [Bool.false_eq_true, if_false, if_true]
    simp only [load_schema, hnc, hperr]
    rw [walkParts_emptyObj (splitPy frag "/") (splitPy_ne_nil frag "/")]
    simp [List.erase_cons_head]

/-- Witness for C6: a concrete filesystem with one unreadable and one
unparseable file, exercised through the loader and through a fragment
reference into each. -/
theorem missing_file_warns_and_resolves_unknown_witness :
    load_schema ⟨fun k => if k = "bad.yaml" then LoadOutcome.parseError "boom"
        else LoadOutcome.missing, id, id, fun _ r => r⟩ ⟨[], [], [], []⟩ "other.yaml"
      = (Json.obj [], ⟨[], [], [], ["Warning: Could not find file: other.yaml"]⟩)
    ∧ load_schema ⟨fun k => if k = "bad.yaml" then LoadOutcome.parseError "boom"
        else LoadOutcome.missing, id, id, fun _ r => r⟩ ⟨[], [], [], []⟩ "bad.yaml"
      = (Json.obj [], ⟨[], [], [], ["Warning: Error loading bad.yaml: boom"]⟩)
    ∧ resolve_reference ⟨fun k => if k = "bad.yaml" then LoadOutcome.parseError "boom"
        else LoadOutcome.missing, id, id, fun _ r => r⟩ ⟨[], [], [], []⟩
        (Json.str "other.yaml#/components/X") (Json.obj []) "cur"
      = (Except.ok (unknownFrag "other.yaml#/components/X"),
         ⟨[], [], [], ["Warning: Could not find file: other.yaml"]⟩)
    ∧ resolve_reference ⟨fun k => if k = "bad.yaml" then LoadOutcome.parseError "boom"
        else LoadOutcome.missing, id, id, fun _ r => r⟩ ⟨[], [], [], []⟩
        (Json.str "bad.yaml#/components/X") (Json.obj []) "cur"
      = (Except.ok (unknownFrag "bad.yaml#/components/X"),
         ⟨[], [], [], ["Warning: Error loading bad.yaml: boom"]⟩) := by
  have hOther := missing_file_warns_and_resolves_unknown
    ⟨fun k => if k = "bad.yaml" then LoadOutcome.parseError "boom"
        else LoadOutcome.missing, id, id, fun _ r => r⟩ "other.yaml"
  have hBad := missing_file_warns_and_resolves_unknown
    ⟨fun k => if k = "bad.yaml" then LoadOutcome.parseError "boom"
        else LoadOutcome.missing, id, id, fun _ r => r⟩ "bad.yaml"
  refine ⟨?_, ?_, ?_, ?_⟩
  · exact hOther.1 ⟨[], [], [], []⟩ rfl rfl
  · exact hBad.2.1 ⟨[], [], [], []⟩ "boom" rfl rfl
  · exact hOther.2.2.1 ⟨[], [], [], []⟩ "other.yaml#/components/X" "other.yaml" "components/X"
      "cur" (Json.obj []) rfl rfl rfl rfl rfl rfl rfl (by simp)
  · exact hBad.2.2.2 ⟨[], [], [], []⟩ "bad.yaml#/components/X" "bad.yaml" "components/X"
      "cur" "boom" (Json.obj []) rfl rfl rfl rfl rfl rfl rfl (by simp)

/-- C8: within one run, once a file has been loaded and cached under its
resolved path, a second load of any path resolving to the same key returns
the cached parse with the state unchanged — for any filesystem contents, so
the file is not re-read or re-parsed. -/
theorem second_load_uses_cache (env : Env) (st : St) (p q : String) (j : Json)
    (hnc : assoc st.schema_cache (env.resolve (env.baseJoin p)) = none)
    (hfound : env.fs (env.resolve (env.baseJoin p)) = LoadOutcome.found j)
    (hkey : env.resolve (env.baseJoin q) = env.resolve (env.baseJoin p)) :
    load_schema env st p =
      (j, { st with schema_cache := (env.resolve (env.baseJoin p), j) :: st.schema_cache })
    ∧ ∀ fs2 : String → LoadOutcome,
        load_schema { env with fs := fs2 }
          { st with schema_cache := (env.resolve (env.baseJoin p), j) :: st.schema_cache } q =
          (j, { st with schema_cache := (env.resolve (env.baseJoin p), j) :: st.schema_cache }) := by
  constructor
  · simp [load_schema, hnc, hfound]
  · intro fs2
    simp [load_schema, hkey, assoc]

/-- Witness for C8: two distinct path spellings resolving to one file. -/
theorem second_load_uses_cache_witness :
    load_schema ⟨fun k => if k = "dir/a.yaml" then LoadOutcome.found (Json.obj [("x", Json.num 1)])
        else LoadOutcome.missing, id, fun s => if s = "dir/../dir/a.yaml" then "dir/a.yaml" else s,
        fun _ r => r⟩ ⟨[], [], [], []⟩ "dir/a.yaml"
      = (Json.obj [("x", Json.num 1)], ⟨[], [("dir/a.yaml", Json.obj [("x", Json.num 1)])], [], []⟩)
    ∧ load_schema ⟨fun _ => LoadOutcome.missing, id,
        fun s => if s = "dir/../dir/a.yaml" then "dir/a.yaml" else s, fun _ r => r⟩
        ⟨[], [("dir/a.yaml", Json.obj [("x", Json.num 1)])], [], []⟩ "dir/../dir/a.yaml"
      = (Json.obj [("x", Json.num 1)], ⟨[], [("dir/a.yaml", Json.obj [("x", Json.num 1)])], [], []⟩) := by
  have h := second_load_uses_cache
    ⟨fun k => if k = "dir/a.yaml" then LoadOutcome.found (Json.obj [("x", Json.num 1)])
        else LoadOutcome.missing, id, fun s => if s = "dir/../dir/a.yaml" then "dir/a.yaml" else s,
        fun _ r => r⟩ ⟨[], [], [], []⟩ "dir/a.yaml" "dir/../dir/a.yaml"
    (Json.obj [("x", Json.num 1)]) rfl rfl rfl
  exact ⟨h.1, h.2 (fun _ => LoadOutcome.missing)⟩

/-- C10: when a fragment holds several combinator keys, `parse_schema`
recurses only into the branches of the first key in the fixed order `allOf`,
`anyOf`, `oneOf` and then returns — the later combinator keys of the same
fragment contribute nothing at all. -/
theorem first_combinator_only (env : Env) (fuel : Nat) (st : St) (path : String)
    (preq : Json) (cf : String) (A B C : Json) :
    (parse_schema env fuel st (Json.obj [("allOf", A), ("anyOf", B), ("oneOf", C)]) path preq cf
      = parse_schema env fuel st (Json.obj [("allOf", A)]) path preq cf)
    ∧ (parse_schema env fuel st (Json.obj [("anyOf", B), ("oneOf", C)]) path preq cf
      = parse_schema env fuel st (Json.obj [("anyOf", B)]) path preq cf) := by
  cases fuel with
  | zero => exact ⟨rfl, rfl⟩
  | succ n => exact ⟨rfl, rfl⟩

/-- The self-referential document of the C1 counterexample: a schema whose
`$ref` chain is a cycle through a single file. -/
def cyclicDoc : Json := Json.obj [("$ref", Json.str "self")]

/-- A filesystem on which the file `self` parses to `cyclicDoc`. -/
def cyclicEnv : Env :=
  ⟨fun p => if p = "self" then LoadOutcome.found cyclicDoc else LoadOutcome.missing,
   id, id, fun _ r => r⟩

/-- The state reached after the first resolution step: the cycle's fixed
point (the visited set is empty again, the file is cached). -/
def cyclicSt : St := ⟨[], [("self", cyclicDoc)], [], []⟩

theorem cyclic_fixed_point : ∀ fuel : Nat,
    (parse_schema cyclicEnv fuel cyclicSt cyclicDoc "" (Json.arr []) "self").1 =
      Except.error RunErr.fuelOut := by
  intro fuel
  induction fuel with
  | zero => rfl
  | succ n ih =>
    have hstep : parse_schema cyclicEnv (n + 1) cyclicSt cyclicDoc "" (Json.arr []) "self"
        = parse_schema cyclicEnv n cyclicSt cyclicDoc "" (Json.arr []) "self" := rfl
    rw [hstep]
    exact ih

/-- C1 (code bug): on a cyclic `$ref` chain the walk does NOT terminate with
a cycle placeholder — the resolver's `finally` releases the visited token
before `parse_schema` recurses into the resolved fragment, so the guard never
fires and the walk consumes any amount of fuel (in Python: recursion until
`RecursionError`). -/
theorem cyclic_ref_chain_diverges : ∀ fuel : Nat,
    (parse_schema cyclicEnv fuel ⟨[], [], [], []⟩ cyclicDoc "" (Json.arr []) "self").1 =
      Except.error RunErr.fuelOut := by
  intro fuel
  cases fuel with
  | zero => rfl
  | succ n =>
    have hstep : parse_schema cyclicEnv (n + 1) ⟨[], [], [], []⟩ cyclicDoc "" (Json.arr []) "self"
        = parse_schema cyclicEnv n cyclicSt cyclicDoc "" (Json.arr []) "self" := rfl
    rw [hstep]
    exact cyclic_fixed_point n

theorem jsize_arr (xs : List Json) : jsize (Json.arr xs) = jsizeL xs + 1 := by
  simp [jsize, Nat.add_comm]

@[simp] theorem pyIn_obj (k : String) (kvs : List (String × Json)) :
    pyIn k (Json.obj kvs) = Except.ok (assoc kvs k).isSome := rfl

@[simp] theorem pyGetD_obj (kvs : List (String × Json)) (k : String) (d : Json) :
    pyGetD (Json.obj kvs) k d = Except.ok ((assoc kvs k).getD d) := rfl

@[simp] theorem pyGet_obj (kvs : List (String × Json)) (k : String) :
    pyGet (Json.obj kvs) k = Except.ok ((assoc kvs k).getD Json.null) := rfl

@[simp] theorem pyItems_obj (kvs : List (String × Json)) :
    pyItems (Json.obj kvs) = Except.ok kvs := rfl

theorem pySubscript_obj_some {kvs : List (String × Json)} {k : String} {v : Json}
    (h : assoc kvs k = some v) : pySubscript (Json.obj kvs) k = Except.ok v := by
  simp [pySubscript, h]

theorem rowsPropsF_congr : ∀ (props : List (String × Json)) (path : String) (required : Json)
    (rec1 rec2 : Json → String → Option (List SchemaProperty)),
    (∀ j p, jsize j ≤ jsizeP props → rec1 j p = rec2 j p) →
    rowsPropsF rec1 props path required = rowsPropsF rec2 props path required
  | [], _, _, _, _, _ => rfl
  | (name, v) :: rest, path, required, rec1, rec2, hrec => by
    have htail : ∀ j p, jsize j ≤ jsizeP rest → rec1 j p = rec2 j p := by
      intro j p hj
      apply hrec
      simp only [jsizeP]
      omega
    have hrest := rowsPropsF_congr rest path required rec1 rec2 htail
    simp only [rowsPropsF]
    cases v with
    | null => rfl
    | bool b => rfl
    | num m => rfl
    | str s => rfl
    | arr xs => rfl
    | obj pkvs =>
      have hv : jsize (Json.obj pkvs) ≤ jsizeP ((name, Json.obj pkvs) :: rest) := by
        simp only [jsizeP]
        omega
      cases hgt : get_type_string (Json.obj pkvs) with
      | error e => rfl
      | ok dt =>
        cases hgc : get_cardinality (Json.obj pkvs) required name with
        | error e => rfl
        | ok card =>
          rw [hrest]
          by_cases hol : objLike pkvs
          · simp [hol, hrec _ _ hv]
          · by_cases har : isStrEq ((assoc pkvs "type").getD Json.null) "array"
            · cases hi : assoc pkvs "items" with
              | some it =>
                cases it with
                | obj ikvs =>
                  by_cases holi : objLike ikvs
                  · have hik : jsize (Json.obj ikvs) ≤ jsizeP ((name, Json.obj pkvs) :: rest) := by
                      have hlt := assoc_jsize_lt hi
                      omega
                    simp [hol, har, hi, holi, hrec _ _ hik]
                  · simp [hol, har, hi, holi]
                | null => simp [hol, har, hi]
                | bool b => simp [hol, har, hi]
                | num m => simp [hol, har, hi]
                | str s => simp [hol, har, hi]
                | arr xs => simp [hol, har, hi]
              | none => simp [hol, har, hi]
            · simp [hol, har]

theorem rowsOfF_irrel : ∀ (n : Nat) (j : Json) (path : String), jsize j ≤ n →
    rowsOfF n j path = rowsOf j path := by
  intro n
  induction n using Nat.strong_induction_on with
  | _ n IH =>
    intro j path hle
    cases n with
    | zero => exact absurd (le_trans (jsize_pos j) hle) (by omega)
    | succ n' =>
      cases j with
      | null => rfl
      | bool b => rfl
      | num m => rfl
      | str s => rfl
      | arr xs =>
        simp only [rowsOf]
        rw [jsize_arr]
        simp only [rowsOfF]
      | obj kvs =>
        have hsz : jsizeP kvs ≤ n' := by
          rw [jsize_obj] at hle
          omega
        simp only [rowsOf]
        rw [jsize_obj]
        simp only [rowsOfF]
        by_cases hrc : ((assoc kvs "$ref").isSome || (assoc kvs "allOf").isSome
            || (assoc kvs "anyOf").isSome || (assoc kvs "oneOf").isSome) = true
        · simp [hrc]
        · simp only [eq_self_iff_true, Bool.not_eq_true] at hrc
          by_cases hol : objLike kvs
          · cases hp : assoc kvs "properties" with
            | none => simp [hrc, hol, hp]
            | some pv =>
              cases pv with
              | obj props =>
                have hps : jsizeP props ≤ jsizeP kvs := by
                  have hlt := assoc_jsize_lt hp
                  rw [jsize_obj] at hlt
                  simp only [jsize] at hlt
                  omega
                have hcongr : rowsPropsF (fun j2 p2 => rowsOfF n' j2 p2) props path
                    ((assoc kvs "required").getD (Json.arr []))
                    = rowsPropsF (fun j2 p2 => rowsOfF (jsizeP kvs) j2 p2) props path
                    ((assoc kvs "required").getD (Json.arr [])) := by
                  apply rowsPropsF_congr
                  intro j2 p2 hj2
                  rw [IH n' (by omega) j2 p2 (by omega), IH (jsizeP kvs) (by omega) j2 p2 (by omega)]
                simp only [hrc, hol, hp, Bool.or_self, Bool.false_eq_true, if_false, if_true]
                rw [hcongr]
              | null => simp [hrc, hol, hp]
              | bool b => simp [hrc, hol, hp]
              | num m => simp [hrc, hol, hp]
              | str s => simp [hrc, hol, hp]
              | arr xs => simp [hrc, hol, hp]
          · by_cases har : isStrEq ((assoc kvs "type").getD Json.null) "array"
            · cases hi : assoc kvs "items" with
              | none => simp [hrc, hol, har, hi]
              | some iv =>
                cases iv with
                | obj ikvs =>
                  by_cases holi : objLike ikvs
                  · have hik : jsize (Json.obj ikvs) ≤ jsizeP kvs := by
                      have hlt := assoc_jsize_lt hi
                      rw [jsize_obj kvs] at hlt
                      omega
                    simp only [hrc, hol, har, hi, holi, Bool.false_eq_true, if_false, if_true]
                    rw [IH n' (by omega) _ _ (by omega),
                        IH (jsizeP kvs) (by omega) _ _ (by omega)]
                  · simp [hrc, hol, har, hi, holi]
                | null => simp [hrc, hol, har, hi]
                | bool b => simp [hrc, hol, har, hi]
                | num m => simp [hrc, hol, har, hi]
                | str s => simp [hrc, hol, har, hi]
                | arr xs => simp [hrc, hol, har, hi]
            · simp [hrc, hol, har]

theorem runProps_sound (env : Env) (fuel : Nat)
    (IH : ∀ (g : Json) (pth : String) (rows : List SchemaProperty), rowsOf g pth = some rows →
      jsize g ≤ fuel → ∀ (st : St) (preq : Json) (cf : String),
      parse_schema env fuel st g pth preq cf =
        (Except.ok (), { st with properties := st.properties ++ rows })) :
    ∀ (props : List (String × Json)) (path : String) (required : Json) (cf : String)
      (rows : List SchemaProperty) (st : St) (n : Nat),
      rowsPropsF (fun j p => rowsOfF n j p) props path required = some rows →
      jsizeP props ≤ n → n ≤ fuel →
      runProps env (fun s j p r c => parse_schema env fuel s j p r c) st props path required cf
        = (Except.ok (), { st with properties := st.properties ++ rows }) := by
  intro props
  induction props with
  | nil =>
    intro path required cf rows st n hrp _ _
    simp only [rowsPropsF, Option.some.injEq] at hrp
    subst hrp
    simp [runProps]
  | cons kv rest ihrest =>
    obtain ⟨name, v⟩ := kv
    intro path required cf rows st n hrp hsz hnf
    cases v with
    | null => simp [rowsPropsF] at hrp
    | bool b => simp [rowsPropsF] at hrp
    | num m => simp [rowsPropsF] at hrp
    | str s => simp [rowsPropsF] at hrp
    | arr xs => simp [rowsPropsF] at hrp
    | obj pkvs =>
      have hvn : jsize (Json.obj pkvs) ≤ n := by
        simp only [jsizeP] at hsz
        omega
      have hrn : jsizeP rest ≤ n := by
        simp only [jsizeP] at hsz
        omega
      simp only [rowsPropsF] at hrp
      cases hgt : get_type_string (Json.obj pkvs) with
      | error e => simp [hgt] at hrp
      | ok dt =>
        cases hgc : get_cardinality (Json.obj pkvs) required name with
        | error e => simp [hgt, hgc] at hrp
        | ok card =>
          simp only [hgt, hgc] at hrp
          cases ht : rowsPropsF (fun j p => rowsOfF n j p) rest path required with
          | none => simp [ht] at hrp
          | some rs =>
            rw [ht] at hrp
            by_cases h1 : isStrEq ((assoc pkvs "type").getD Json.null) "object"
            · -- object-typed property: recurse with objLike true
              have hol : objLike pkvs = true := by simp [objLike, h1]
              rw [rowsOfF_irrel n _ (path ++ "/" ++ name) hvn] at hrp
              cases hn : rowsOf (Json.obj pkvs) (path ++ "/" ++ name) with
              | none => simp [hol, hn] at hrp
              | some ns =>
                simp only [hol, hn, if_true, Option.some.injEq] at hrp
                subst hrp
                simp only [runProps, hgt, hgc, pyGetD_obj, pyGet_obj, h1, if_true]
                rw [IH (Json.obj pkvs) (path ++ "/" ++ name) ns hn (le_trans hvn hnf)]
                try dsimp only []
                rw [ihrest path required cf rs _ n ht hrn hnf]
                simp [List.append_assoc]
            · cases hp : assoc pkvs "properties" with
              | some pv =>
                -- properties key present: objLike true, recurse
                have hol : objLike pkvs = true := by simp [objLike, hp]
                rw [rowsOfF_irrel n _ (path ++ "/" ++ name) hvn] at hrp
                cases hn : rowsOf (Json.obj pkvs) (path ++ "/" ++ name) with
                | none => simp [hol, hn] at hrp
                | some ns =>
                  simp only [hol, hn, if_true, Option.some.injEq] at hrp
                  subst hrp
                  simp only [runProps, hgt, hgc, pyGetD_obj, pyGet_obj, pyIn_obj, h1, hp,
                    if_false, Bool.false_eq_true, Option.isSome_some, if_true]
                  rw [IH (Json.obj pkvs) (path ++ "/" ++ name) ns hn (le_trans hvn hnf)]
                  try dsimp only []
                  rw [ihrest path required cf rs _ n ht hrn hnf]
                  simp [List.append_assoc]
              | none =>
                have hol : objLike pkvs = false := by simp [objLike, h1, hp]
                by_cases har : isStrEq ((assoc pkvs "type").getD Json.null) "array"
                · cases hi : assoc pkvs "items" with
                  | some iv =>
                    cases iv with
                    | obj ikvs =>
                      have hin : jsize (Json.obj ikvs) ≤ n := by
                        have hlt := assoc_jsize_lt hi
                        omega
                      by_cases h3 : isStrEq ((assoc ikvs "type").getD Json.null) "object"
                      · -- items object-typed: recurse into items
                        have holi : objLike ikvs = true := by simp [objLike, h3]
                        simp only [hol, har, hi, holi, if_true, if_false,
                          Bool.false_eq_true] at hrp
                        rw [rowsOfF_irrel n _ (path ++ "/" ++ name ++ "[]") hin] at hrp
                        cases hn : rowsOf (Json.obj ikvs) (path ++ "/" ++ name ++ "[]") with
                        | none => simp [hn] at hrp
                        | some ns =>
                          simp only [hn, Option.some.injEq] at hrp
                          subst hrp
                          simp only [runProps, hgt, hgc, pyGetD_obj, pyGet_obj, pyIn_obj, h1,
                            hp, har, hi, h3, Option.isSome_some, Option.isSome_none, if_true,
                            if_false, Bool.false_eq_true, pySubscript_obj_some hi]
                          rw [IH (Json.obj ikvs) (path ++ "/" ++ name ++ "[]") ns hn
                            (le_trans hin hnf)]
                          try dsimp only []
                          rw [ihrest path required cf rs _ n ht hrn hnf]
                          simp [List.append_assoc]
                      · cases hp2 : assoc ikvs "properties" with
                        | some pv2 =>
                          have holi : objLike ikvs = true := by simp [objLike, hp2]
                          simp only [hol, har, hi, holi, if_true, if_false,
                            Bool.false_eq_true] at hrp
                          rw [rowsOfF_irrel n _ (path ++ "/" ++ name ++ "[]") hin] at hrp
                          cases hn : rowsOf (Json.obj ikvs) (path ++ "/" ++ name ++ "[]") with
                          | none => simp [hn] at hrp
                          | some ns =>
                            simp only [hn, Option.some.injEq] at hrp
                            subst hrp
                            simp only [runProps, hgt, hgc, pyGetD_obj, pyGet_obj, pyIn_obj, h1,
                              hp, har, hi, h3, hp2, Option.isSome_some, Option.isSome_none,
                              if_true, if_false, Bool.false_eq_true, pySubscript_obj_some hi]
                            rw [IH (Json.obj ikvs) (path ++ "/" ++ name ++ "[]") ns hn
                              (le_trans hin hnf)]
                            try dsimp only []
                            rw [ihrest path required cf rs _ n ht hrn hnf]
                            simp [List.append_assoc]
                        | none =>
                          have holi : objLike ikvs = false := by simp [objLike, h3, hp2]
                          cases hr2 : assoc ikvs "$ref" with
                          | some rv => simp [hol, har, hi, holi, hr2] at hrp
                          | none =>
                            simp only [hol, har, hi, holi, hr2, if_true, if_false,
                              Bool.false_eq_true, Option.isSome_none, Option.some.injEq] at hrp
                            subst hrp
                            simp only [runProps, hgt, hgc, pyGetD_obj, pyGet_obj, pyIn_obj, h1,
                              hp, har, hi, h3, hp2, hr2, Option.isSome_some, Option.isSome_none,
                              if_true, if_false, Bool.false_eq_true, pySubscript_obj_some hi]
                            try dsimp only []
                            rw [ihrest path required cf rs _ n ht hrn hnf]
                            simp [List.append_assoc]
                    | null => simp [hol, har, hi] at hrp
                    | bool b => simp [hol, har, hi] at hrp
                    | num m => simp [hol, har, hi] at hrp
                    | str s => simp [hol, har, hi] at hrp
                    | arr xs => simp [hol, har, hi] at hrp
                  | none =>
                    cases hr : assoc pkvs "$ref" with
                    | some rv => simp [hol, har, hi, hr] at hrp
                    | none =>
                      simp only [hol, har, hi, hr, if_true, if_false, Bool.false_eq_true,
                        Option.isSome_none, Option.some.injEq] at hrp
                      subst hrp
                      simp only [runProps, refCase, hgt, hgc, pyGetD_obj, pyGet_obj, pyIn_obj,
                        h1, hp, har, hi, hr, Option.isSome_some, Option.isSome_none, if_true,
                        if_false, Bool.false_eq_true]
                      try dsimp only []
                      rw [ihrest path required cf rs _ n ht hrn hnf]
                      simp [List.append_assoc]
                · cases hr : assoc pkvs "$ref" with
                  | some rv => simp [hol, har, hr] at hrp
                  | none =>
                    simp only [hol, har, hr, if_true, if_false, Bool.false_eq_true,
                      Option.isSome_none, Option.some.injEq] at hrp
                    subst hrp
                    simp only [runProps, refCase, hgt, hgc, pyGetD_obj, pyGet_obj, pyIn_obj,
                      h1, hp, har, hr, Option.isSome_some, Option.isSome_none, if_true,
                      if_false, Bool.false_eq_true]
                    try dsimp only []
                    rw [ihrest path required cf rs _ n ht hrn hnf]
                    simp [List.append_assoc]

theorem parse_rowsOf (env : Env) : ∀ (fuel : Nat) (f : Json) (path : String)
    (rows : List SchemaProperty), rowsOf f path = some rows → jsize f ≤ fuel →
    ∀ (st : St) (preq : Json) (cf : String),
    parse_schema env fuel st f path preq cf =
      (Except.ok (), { st with properties := st.properties ++ rows }) := by
  intro fuel
  induction fuel using Nat.strong_induction_on with
  | _ fuel IH =>
    intro f path rows hrows hle st preq cf
    cases fuel with
    | zero => exact absurd (le_trans (jsize_pos f) hle) (by omega)
    | succ n =>
      cases f with
      | null => simp [rowsOf, jsize, rowsOfF] at hrows
      | bool b => simp [rowsOf, jsize, rowsOfF] at hrows
      | num m => simp [rowsOf, jsize, rowsOfF] at hrows
      | str s => simp [rowsOf, jsize, rowsOfF] at hrows
      | arr xs =>
        rw [rowsOf, jsize_arr] at hrows
        simp [rowsOfF] at hrows
      | obj kvs =>
        have hszn : jsizeP kvs ≤ n := by
          rw [jsize_obj] at hle
          omega
        rw [rowsOf, jsize_obj] at hrows
        simp only [rowsOfF] at hrows
        have hrf : assoc kvs "$ref" = none := by
          cases h : assoc kvs "$ref" with
          | none => rfl
          | some rv => rw [h] at hrows; simp at hrows
        have hAl : assoc kvs "allOf" = none := by
          cases h : assoc kvs "allOf" with
          | none => rfl
          | some rv => rw [hrf, h] at hrows; simp at hrows
        have hAn : assoc kvs "anyOf" = none := by
          cases h : assoc kvs "anyOf" with
          | none => rfl
          | some rv => rw [hrf, hAl, h] at hrows; simp at hrows
        have hOn : assoc kvs "oneOf" = none := by
          cases h : assoc kvs "oneOf" with
          | none => rfl
          | some rv => rw [hrf, hAl, hAn, h] at hrows; simp at hrows
        rw [hrf, hAl, hAn, hOn] at hrows
        simp only [Option.isSome_none, Bool.or_self, Bool.false_eq_true, if_false] at hrows
        have IHn : ∀ (g : Json) (pth : String) (rows' : List SchemaProperty),
            rowsOf g pth = some rows' → jsize g ≤ n →
            ∀ (st' : St) (preq' : Json) (cf' : String),
            parse_schema env n st' g pth preq' cf' =
              (Except.ok (), { st' with properties := st'.properties ++ rows' }) := by
          intro g pth rows' hg1 hg2 st' preq' cf'
          exact IH n (by omega) g pth rows' hg1 hg2 st' preq' cf'
        by_cases h1 : isStrEq ((assoc kvs "type").getD Json.null) "object"
        · have hol : objLike kvs = true := by simp [objLike, h1]
          rw [hol] at hrows
          simp only [if_true] at hrows
          simp only [parse_schema, pyIn_obj, hrf, hAl, hAn, hOn, Option.isSome_none,
            Bool.false_eq_true, if_false, pyGet_obj, h1, if_true, objectStep, pyGetD_obj]
          cases hp : assoc kvs "properties" with
          | none =>
            rw [hp] at hrows
            simp only [Option.some.injEq] at hrows
            subst hrows
            simp [hp, runProps]
          | some pv =>
            rw [hp] at hrows
            cases pv with
            | obj props =>
              have hps : jsizeP props ≤ jsizeP kvs := by
                have hq := assoc_jsize_lt hp
                rw [jsize_obj kvs, jsize_obj props] at hq
                omega
              simp only [hp, Option.getD_some, pyItems_obj]
              exact runProps_sound env n IHn props path
                ((assoc kvs "required").getD (Json.arr [])) cf rows st (jsizeP kvs) hrows
                hps hszn
            | null => simp at hrows
            | bool b => simp at hrows
            | num m => simp at hrows
            | str s => simp at hrows
            | arr ys => simp at hrows
        · cases hp : assoc kvs "properties" with
          | some pv =>
            have hol : objLike kvs = true := by simp [objLike, hp]
            rw [hol] at hrows
            simp only [if_true] at hrows
            rw [hp] at hrows
            simp only [parse_schema, pyIn_obj, hrf, hAl, hAn, hOn, Option.isSome_none,
              Bool.false_eq_true, if_false, pyGet_obj, h1, hp, Option.isSome_some, if_true,
              objectStep, pyGetD_obj]
            cases pv with
            | obj props =>
              have hps : jsizeP props ≤ jsizeP kvs := by
                have hq := assoc_jsize_lt hp
                rw [jsize_obj kvs, jsize_obj props] at hq
                omega
              simp only [hp, Option.getD_some, pyItems_obj]
              exact runProps_sound env n IHn props path
                ((assoc kvs "required").getD (Json.arr [])) cf rows st (jsizeP kvs) hrows
                hps hszn
            | null => simp at hrows
            | bool b => simp at hrows
            | num m => simp at hrows
            | str s => simp at hrows
            | arr ys => simp at hrows
          | none =>
            have hol : objLike kvs = false := by simp [objLike, h1, hp]
            rw [hol] at hrows
            simp only [Bool.false_eq_true, if_false] at hrows
            by_cases har : isStrEq ((assoc kvs "type").getD Json.null) "array"
            · rw [har] at hrows
              simp only [if_true] at hrows
              cases hi : assoc kvs "items" with
              | none =>
                rw [hi] at hrows
                simp only [Option.some.injEq] at hrows
                subst hrows
                simp [parse_schema, pyIn_obj, hrf, hAl, hAn, hOn, pyGet_obj, h1, hp, har, hi]
              | some iv =>
                rw [hi] at hrows
                cases iv with
                | obj ikvs =>
                  dsimp only [] at hrows
                  have hin2 : jsize (Json.obj ikvs) ≤ jsizeP kvs := by
                    have hq := assoc_jsize_lt hi
                    rw [jsize_obj kvs] at hq
                    omega
                  have hin : jsize (Json.obj ikvs) ≤ n := le_trans hin2 hszn
                  by_cases holi : objLike ikvs
                  · rw [holi] at hrows
                    simp only [if_true] at hrows
                    rw [rowsOfF_irrel (jsizeP kvs) _ (path ++ "[]") hin2] at hrows
                    simp only [parse_schema, pyIn_obj, hrf, hAl, hAn, hOn, Option.isSome_none,
                      Bool.false_eq_true, if_false, pyGet_obj, h1, hp, har, if_true,
                      pySubscript_obj_some hi, hi, Option.isSome_some]
                    by_cases h3 : isStrEq ((assoc ikvs "type").getD Json.null) "object"
                    · simp only [h3, if_true]
                      exact IHn (Json.obj ikvs) (path ++ "[]") rows hrows hin st (Json.arr []) cf
                    · have hp2 : (assoc ikvs "properties").isSome = true := by
                        simp only [objLike, h3, Bool.false_or] at holi
                        exact holi
                      simp only [h3, Bool.false_eq_true, if_false, hp2, if_true]
                      exact IHn (Json.obj ikvs) (path ++ "[]") rows hrows hin st (Json.arr []) cf
                  · have hol2 : objLike ikvs = false := by simpa using holi
                    rw [hol2] at hrows
                    simp only [Bool.false_eq_true, if_false, Option.some.injEq] at hrows
                    subst hrows
                    have hpair : isStrEq ((assoc ikvs "type").getD Json.null) "object" = false ∧
                        (assoc ikvs "properties").isSome = false := by
                      have hx := hol2
                      simp only [objLike, Bool.or_eq_false_iff] at hx
                      exact hx
                    simp [parse_schema, pyIn_obj, hrf, hAl, hAn, hOn, pyGet_obj, h1, hp, har,
                      hi, pySubscript_obj_some hi, hpair.1, hpair.2]
                | null => simp at hrows
                | bool b => simp at hrows
                | num m => simp at hrows
                | str s => simp at hrows
                | arr ys => simp at hrows
            · have har2 : isStrEq ((assoc kvs "type").getD Json.null) "array" = false := by
                simpa using har
              rw [har2] at hrows
              simp only [Bool.false_eq_true, if_false, Option.some.injEq] at hrows
              subst hrows
              simp [parse_schema, pyIn_obj, hrf, hAl, hAn, hOn, pyGet_obj, h1, hp, har2]

/-- The empty run-scoped state at the start of a `visualize` call. -/
def emptySt : St := ⟨[], [], [], []⟩

/-- An environment whose filesystem holds no readable files. -/
def noFsEnv : Env := ⟨fun _ => LoadOutcome.missing, id, id, fun _ r => r⟩

/-- C5 counterexample: a schema with no `$ref` tokens and no combinators
(`{"type": "object", "properties": {"a": "hello"}}`, one declared property)
on which the walker raises `AttributeError` inside `get_cardinality` and
emits zero PropertyRecords — refuting "exactly one record per declared
property" for every reference-free, combinator-free schema. -/
theorem one_record_per_property_counterexample :
    (parse_schema noFsEnv 10 emptySt
        (Json.obj [("type", Json.str "object"),
          ("properties", Json.obj [("a", Json.str "hello")])]) "" (Json.arr []) "").1 =
      Except.error (RunErr.exc "AttributeError: object has no attribute get")
    ∧ (parse_schema noFsEnv 10 emptySt
        (Json.obj [("type", Json.str "object"),
          ("properties", Json.obj [("a", Json.str "hello")])]) "" (Json.arr []) "").2.properties
      = [] :=
  ⟨rfl, rfl⟩

/-- C5 (amended): for every schema in the well-typed reference-free,
combinator-free class — characterised by `rowsOf f path = some rows` — and
fuel at least the schema's size, the walker succeeds and appends exactly
`rows`: one PropertyRecord per declared property, in document key order, at
every nesting level reachable via `properties`/`items`, leaving the rest of
the state untouched. -/
theorem one_record_per_property (env : Env) (fuel : Nat) (f : Json) (path : String)
    (rows : List SchemaProperty) (h : rowsOf f path = some rows) (hfuel : jsize f ≤ fuel)
    (st : St) (preq : Json) (cf : String) :
    parse_schema env fuel st f path preq cf =
      (Except.ok (), { st with properties := st.properties ++ rows }) :=
  parse_rowsOf env fuel f path rows h hfuel st preq cf

/-- Witness for C5 on the specification's own example document. -/
theorem one_record_per_property_witness :
    parse_schema noFsEnv 60 emptySt
      (Json.obj [("type", Json.str "object"), ("required", Json.arr [Json.str "id"]),
        ("properties", Json.obj [
          ("id", Json.obj [("type", Json.str "string")]),
          ("tags", Json.obj [("type", Json.str "array"),
            ("items", Json.obj [("type", Json.str "string")]),
            ("minItems", Json.num 1)])])]) "" (Json.arr []) "f.yaml"
    = (Except.ok (), ⟨[], [], [
        ⟨"/", "id", Json.str "string", "1..1", Json.str ""⟩,
        ⟨"/", "tags", Json.str "array<string>", "0..1 (array)", Json.str ""⟩], []⟩) := by
  have h := one_record_per_property noFsEnv 60
    (Json.obj [("type", Json.str "object"), ("required", Json.arr [Json.str "id"]),
      ("properties", Json.obj [
        ("id", Json.obj [("type", Json.str "string")]),
        ("tags", Json.obj [("type", Json.str "array"),
          ("items", Json.obj [("type", Json.str "string")]),
          ("minItems", Json.num 1)])])]) ""
    [⟨"/", "id", Json.str "string", "1..1", Json.str ""⟩,
     ⟨"/", "tags", Json.str "array<string>", "0..1 (array)", Json.str ""⟩]
    rfl (by decide) emptySt (Json.arr []) "f.yaml"
  exact h

/-- C7 counterexample: on a loaded document whose property `b` declares a
tuple-form `items` list, the walker emits the record for `b` and then an
`AttributeError` (from `items_schema.get`) propagates out of that property's
processing and aborts the run — refuting "no exception propagates". -/
theorem no_walker_exception_counterexample :
    (parse_schema noFsEnv 10 emptySt
        (Json.obj [("type", Json.str "object"),
          ("properties", Json.obj [("b", Json.obj [("type", Json.str "array"),
            ("items", Json.arr [Json.obj []])])])]) "" (Json.arr []) "").1 =
      Except.error (RunErr.exc "AttributeError: object has no attribute get")
    ∧ (parse_schema noFsEnv 10 emptySt
        (Json.obj [("type", Json.str "object"),
          ("properties", Json.obj [("b", Json.obj [("type", Json.str "array"),
            ("items", Json.arr [Json.obj []])])])]) "" (Json.arr []) "").2.properties.length
      = 1 :=
  ⟨rfl, rfl⟩

/-- C7 (amended): the embedded walk is total (returns success, no modelled
exception) on every loaded document of the well-typed reference-free class
`rowsOf f path = some rows`, for any environment and state; outside that
class an exception can escape a single property's processing (see the
counterexample). -/
theorem walker_total_on_welltyped (env : Env) (fuel : Nat) (f : Json) (path : String)
    (rows : List SchemaProperty) (h : rowsOf f path = some rows) (hfuel : jsize f ≤ fuel)
    (st : St) (preq : Json) (cf : String) :
    (parse_schema env fuel st f path preq cf).1 = Except.ok () := by
  rw [parse_rowsOf env fuel f path rows h hfuel st preq cf]

/-- Witness for C7 on a small well-typed document. -/
theorem walker_total_on_welltyped_witness :
    (parse_schema noFsEnv 30 emptySt
      (Json.obj [("properties", Json.obj [("x", Json.obj [("type", Json.str "integer"),
        ("description", Json.str "n")])])]) "" (Json.arr []) "").1 = Except.ok () := by
  have h := walker_total_on_welltyped noFsEnv 30
    (Json.obj [("properties", Json.obj [("x", Json.obj [("type", Json.str "integer"),
      ("description", Json.str "n")])])]) ""
    [⟨"/", "x", Json.str "integer", "0..1", Json.str "n"⟩]
    rfl (by decide) emptySt (Json.arr []) ""
  exact h
